import Mathlib

/-!
Shallow embedding of the product-catalog service
(`src/arch_layer_prod_mongo_fast`): the `Product` data model, the three
store adapters (`MongoRepository`, `RedisRepository`, `ElasticRepository`)
and the orchestrating `ProductService`, together with theorems about the
cache-aside read path and the write-side synchronization protocols.

Modelling conventions:
- `price` is carried as an integer number of cents (the search mapping uses
  a scaled float with scaling factor 100 and the domain model fixes two
  decimal places); no claim computes with prices, they are only carried.
- timestamps are natural numbers; `datetime.now(UTC)` becomes an explicit
  `now` parameter threaded into the operations that stamp timestamps.
- each adapter call that can fail against its backing store takes a fault
  flag (the `Faults` record); a `true` flag makes the underlying client
  raise, which the adapter wraps into its domain error exactly as the
  Python `try/except` blocks do.
- the Python dict produced by `model_dump()` (and stored in the cache /
  search index) is the record `ProductDict` of optional fields; a missing
  key is `none`.
-/

namespace Catalog

/-- Error taxonomy of `exceptions.py`, plus `validationError` standing for
pydantic's `ValidationError` (raised by `Product(**cached)` on a bad
snapshot; it is not an `AppError` subclass, so no adapter handler
catches it). -/
inductive ServiceError where
  | notFound
  | databaseError
  | cacheError
  | searchError
  | validationError
  deriving Repr, DecidableEq

/-- The `Product` document of `models/product.py`. `id` is the store-assigned
identifier (an ObjectId rendered as a string). -/
structure Product where
  id : String
  name : String
  description : Option String
  price : Int
  stock : Nat
  category : String
  is_active : Bool
  created_at : Nat
  updated_at : Nat
  deriving Repr, DecidableEq

/-- Model of `ProductCreate` of `models/product.py`: all item fields except the
identifier and the timestamps. -/
structure ProductCreate where
  name : String
  description : Option String
  price : Int
  stock : Nat
  category : String
  is_active : Bool
  deriving Repr, DecidableEq

/-- Model of `ProductUpdate` of `models/product.py` under `model_dump(exclude_unset=True)`
semantics: `none` means the field was not set by the caller and is excluded
from the update. -/
structure ProductUpdate where
  name : Option String
  description : Option String
  price : Option Int
  stock : Option Nat
  category : Option String
  is_active : Option Bool
  deriving Repr, DecidableEq

/-- The empty update payload: no field set. -/
def ProductUpdate.empty : ProductUpdate :=
  ⟨none, none, none, none, none, none⟩

/-- An update payload that sets only `stock`. -/
def ProductUpdate.stockOnly (n : Nat) : ProductUpdate :=
  ⟨none, none, none, some n, none, none⟩

/-- Whether `data.model_dump(exclude_unset=True)` is the empty dict, i.e.
the caller set no field at all. -/
def ProductUpdate.isUnsetAll (u : ProductUpdate) : Bool :=
  u.name.isNone && u.description.isNone && u.price.isNone &&
    u.stock.isNone && u.category.isNone && u.is_active.isNone

/-- The `setattr` loop of `MongoRepository.update` for a non-empty
`update_data`: apply every present field and stamp `updated_at := now`. -/
def applyFields (p : Product) (u : ProductUpdate) (now : Nat) : Product :=
  { p with
    name := u.name.getD p.name
    description := match u.description with
      | some d => some d
      | none => p.description
    price := u.price.getD p.price
    stock := u.stock.getD p.stock
    category := u.category.getD p.category
    is_active := u.is_active.getD p.is_active
    updated_at := now }

/-- The dict produced by `Product.model_dump()` and consumed by
`Product(**cached)`: every key optional, a missing key is `none`. For
`description` the value `null` and a missing key both map to `none` (both
yield a `Product` with `description = None`). -/
structure ProductDict where
  id : Option String
  name : Option String
  description : Option String
  price : Option Int
  stock : Option Nat
  category : Option String
  is_active : Option Bool
  created_at : Option Nat
  updated_at : Option Nat
  deriving Repr, DecidableEq

/-- Model of `Product.model_dump()`: serialize every field (the id via its string
serializer). -/
def Product.dump (p : Product) : ProductDict :=
  { id := some p.id
    name := some p.name
    description := p.description
    price := some p.price
    stock := some p.stock
    category := some p.category
    is_active := some p.is_active
    created_at := some p.created_at
    updated_at := some p.updated_at }

/-- Python truthiness of the cached dict (`if cached:`): a dict is truthy
iff it has at least one key. -/
def ProductDict.nonEmpty (d : ProductDict) : Bool :=
  d.id.isSome || d.name.isSome || d.description.isSome || d.price.isSome ||
    d.stock.isSome || d.category.isSome || d.is_active.isSome ||
    d.created_at.isSome || d.updated_at.isSome

/-- Model of `Product(**cached)`: pydantic validation of a snapshot dict. The fields
without defaults (`name`, `price`, `category`) must be present or a
`ValidationError` is raised; `stock`, `is_active` fall back to their field
defaults and the timestamps to their `default_factory` (`now`). Value
constraints (lengths, positivity) are not re-modelled here: every value
flowing through the service was validated at the boundary. -/
def parseProduct (d : ProductDict) (now : Nat) : Except ServiceError Product :=
  match d.name, d.price, d.category with
  | some name, some price, some category =>
    .ok { id := d.id.getD ""
          name := name
          description := d.description
          price := price
          stock := d.stock.getD 0
          category := category
          is_active := d.is_active.getD true
          created_at := d.created_at.getD now
          updated_at := d.updated_at.getD now }
  | _, _, _ => .error .validationError

namespace MongoRepository

/-- Model of `MongoRepository.get_by_id`: any underlying store failure is wrapped as
`DatabaseError`; an absent identifier raises `NotFoundError`. The
collection is the list `db`. -/
def get_by_id (fail : Bool) (db : List Product) (pid : String) :
    Except ServiceError Product :=
  if fail then .error .databaseError
  else
    match db.find? (fun p => p.id == pid) with
    | some p => .ok p
    | none => .error .notFound

/-- Write back a saved document: replace the document with this id. -/
def save (db : List Product) (pid : String) (p' : Product) : List Product :=
  db.map (fun q => if q.id == pid then p' else q)

/-- Model of `MongoRepository.update`: resolve the identifier through `get_by_id`
(so a not-found update shares the not-found path of delete), then dump the
payload with `exclude_unset=True`; only when that dict is non-empty stamp
`updated_at` and apply the fields with the `setattr` loop and save. An
empty payload performs no write at all. -/
def update (fail : Bool) (db : List Product) (pid : String)
    (data : ProductUpdate) (now : Nat) :
    Except ServiceError (Product × List Product) :=
  match get_by_id fail db pid with
  | .error e => .error e
  | .ok product =>
    if data.isUnsetAll then .ok (product, db)
    else
      let p' := applyFields product data now
      .ok (p', save db pid p')

/-- Model of `MongoRepository.create`: build the document from the payload (the
timestamps default to `now`), insert it; the store assigns `newId`. -/
def create (fail : Bool) (db : List Product) (data : ProductCreate)
    (newId : String) (now : Nat) :
    Except ServiceError (Product × List Product) :=
  if fail then .error .databaseError
  else
    let p : Product :=
      { id := newId
        name := data.name
        description := data.description
        price := data.price
        stock := data.stock
        category := data.category
        is_active := data.is_active
        created_at := now
        updated_at := now }
    .ok (p, db ++ [p])

/-- Model of `MongoRepository.delete`: resolve the identifier through `get_by_id`,
then delete that document. -/
def delete (fail : Bool) (db : List Product) (pid : String) :
    Except ServiceError (List Product) :=
  match get_by_id fail db pid with
  | .error e => .error e
  | .ok _ => .ok (db.filter (fun q => !(q.id == pid)))

/-- Model of `MongoRepository.list_all`: build the filter query (a falsy `category`
— `None` or the empty string — adds no clause; `is_active` filters only
when not `None`), sort newest-created-first, then apply skip and limit. -/
def list_all (fail : Bool) (db : List Product) (skip limit : Nat)
    (category : Option String) (is_active : Option Bool) :
    Except ServiceError (List Product) :=
  if fail then .error .databaseError
  else
    let q1 : List Product := match category with
      | some c => if c.isEmpty then db else db.filter (fun p => p.category == c)
      | none => db
    let q2 : List Product := match is_active with
      | some b => q1.filter (fun p => p.is_active == b)
      | none => q1
    .ok (((q2.mergeSort (fun a b => Nat.ble b.created_at a.created_at)).drop
      skip).take limit)

/-- Model of `MongoRepository.count`: total number of documents. -/
def count (fail : Bool) (db : List Product) : Except ServiceError Nat :=
  if fail then .error .databaseError else .ok db.length

end MongoRepository

namespace RedisRepository

/-- A cache state: association list from keys to cached snapshot dicts. -/
def Cache := List (String × ProductDict)

/-- Raw client `GET`: first binding for the key, `None` when absent. -/
def cacheGetRaw (c : Cache) (k : String) : Option ProductDict :=
  (List.find? (fun kv => kv.1 == k) c).map Prod.snd

/-- Raw client `SET` (upsert; the TTL bounds the entry lifetime and is not
part of the functional state). -/
def cacheSetRaw (c : Cache) (k : String) (v : ProductDict) : Cache :=
  (k, v) :: List.filter (fun kv => !(kv.1 == k)) c

/-- Raw client `DEL` of one key. -/
def cacheDeleteRaw (c : Cache) (k : String) : Cache :=
  List.filter (fun kv => !(kv.1 == k)) c

/-- Model of `RedisRepository.get`: wrap any client failure as `CacheError`;
a miss is a normal `None`. -/
def get (fail : Bool) (c : Cache) (k : String) :
    Except ServiceError (Option ProductDict) :=
  if fail then .error .cacheError else .ok (cacheGetRaw c k)

/-- Model of `RedisRepository.set`: wrap any client failure as `CacheError`. -/
def set (fail : Bool) (c : Cache) (k : String) (v : ProductDict) :
    Except ServiceError Cache :=
  if fail then .error .cacheError else .ok (cacheSetRaw c k v)

/-- Model of `RedisRepository.delete`: wrap any client failure as `CacheError`. -/
def delete (fail : Bool) (c : Cache) (k : String) :
    Except ServiceError Cache :=
  if fail then .error .cacheError else .ok (cacheDeleteRaw c k)

/-- One `SCAN` round-trip of the client, against the snapshot `ks` of the
keyspace: return up to `100` keys starting at position `cursor` (the server
applies the `match` glob, modelled by the predicate `isMatch`), and the next
cursor — `0` once the whole keyspace has been walked. The batch size `100`
is the `count=100` hard-wired in `delete_pattern`. -/
def scanStep (ks : List String) (isMatch : String → Bool) (cursor : Nat) :
    Nat × List String :=
  ((if cursor + 100 < ks.length then cursor + 100 else 0),
    ((ks.drop cursor).take 100).filter isMatch)

/-- The `while True` loop of `RedisRepository.delete_pattern`, returning the
list of key batches it deletes: scan from `cursor`, delete the returned
keys, and stop as soon as the cursor has returned to its starting value
`0`; otherwise continue from the new cursor. -/
def scanBatches (ks : List String) (isMatch : String → Bool) (cursor : Nat) :
    List (List String) :=
  if (scanStep ks isMatch cursor).1 = 0 then [(scanStep ks isMatch cursor).2]
  else (scanStep ks isMatch cursor).2 ::
    scanBatches ks isMatch (scanStep ks isMatch cursor).1
termination_by ks.length - cursor
decreasing_by
  simp only [scanStep] at *
  split_ifs at * <;> omega

/-- The successive cursor values the `delete_pattern` loop receives from
`SCAN` when started at `cursor`: it mirrors `scanBatches` step for step —
the loop ends exactly when the returned cursor is back at the starting
value `0`. -/
def scanCursors (ks : List String) (cursor : Nat) : List Nat :=
  if cursor + 100 < ks.length then
    (cursor + 100) :: scanCursors ks (cursor + 100)
  else [0]
termination_by ks.length - cursor
decreasing_by omega

/-- Model of `RedisRepository.delete_pattern`: run the scan-and-delete loop over the
live keyspace `ks` and return the surviving keys (any client failure is
wrapped as `CacheError`). -/
def delete_pattern (fail : Bool) (ks : List String)
    (isMatch : String → Bool) : Except ServiceError (List String) :=
  if fail then .error .cacheError
  else
    .ok ((scanBatches ks isMatch 0).foldl
      (fun live batch => live.filter (fun k => !(batch.contains k))) ks)

end RedisRepository

/-- ASCII case mapping of one character, modelling both Python's
`str.lower()` (as called on the query term in `search_by_category`) and
the `lowercase` token filter of the index's `lowercase_normalizer`. -/
def pyLowerChar (c : Char) : Char :=
  if 65 ≤ c.toNat ∧ c.toNat ≤ 90 then Char.ofNat (c.toNat + 32) else c

/-- Lowercasing of a whole string: `pyLowerChar` applied characterwise. -/
def pyLower (s : String) : String :=
  ⟨s.data.map pyLowerChar⟩

namespace ElasticRepository

/-- The search index: association list from document id to the stored
`_source` document. -/
def Index := List (String × ProductDict)

/-- Raw client indexing (an upsert on the document id). -/
def indexRaw (idx : Index) (docId : String) (doc : ProductDict) : Index :=
  (docId, doc) :: List.filter (fun kv => !(kv.1 == docId)) idx

/-- Model of `ElasticRepository.index_document`: wrap any client failure as
`SearchError`. -/
def index_document (fail : Bool) (idx : Index) (docId : String)
    (doc : ProductDict) : Except ServiceError Index :=
  if fail then .error .searchError else .ok (indexRaw idx docId doc)

/-- Model of `ElasticRepository.delete_document`: wrap any client failure as
`SearchError`. -/
def delete_document (fail : Bool) (idx : Index) (docId : String) :
    Except ServiceError Index :=
  if fail then .error .searchError
  else .ok (List.filter (fun kv => !(kv.1 == docId)) idx)

/-- The engine's evaluation of a `term` query on the `category` keyword
field: the field carries `lowercase_normalizer`, so the stored value and
the supplied term are both normalized to lowercase before the exact
comparison; hits are capped at `size`. -/
def termQueryCategory (idx : Index) (term : String) (size : Nat) :
    List ProductDict :=
  ((idx.map Prod.snd).filter
    (fun d => pyLower (d.category.getD "") == pyLower term)).take size

/-- Model of `ElasticRepository.search_by_category`: lowercase the query term
(`category.lower()`), run the `term` query on `category` with the given
`size` (default 100), and return the hit sources; wrap any client failure
as `SearchError`. -/
def search_by_category (fail : Bool) (idx : Index) (category : String)
    (size : Nat) : Except ServiceError (List ProductDict) :=
  if fail then .error .searchError
  else .ok (termQueryCategory idx (pyLower category) size)

/-- Model of `ElasticRepository.bulk_index`: a no-op on an empty document list
(the client is never invoked, so the fault flag is irrelevant there);
otherwise one bulk call that upserts every document under its `id` key. -/
def bulk_index (fail : Bool) (idx : Index) (docs : List ProductDict) :
    Except ServiceError Index :=
  if docs.isEmpty then .ok idx
  else if fail then .error .searchError
  else .ok (docs.foldl (fun acc d => indexRaw acc (d.id.getD "") d) idx)

end ElasticRepository

/-- Fault injection for the backing stores: a `true` flag makes the
corresponding client call raise, which the adapter wraps into its domain
error. -/
structure Faults where
  mongoFails : Bool
  cacheGetFails : Bool
  cacheSetFails : Bool
  cacheDeleteFails : Bool
  searchIndexFails : Bool
  searchDeleteFails : Bool
  searchBulkFails : Bool
  deriving Repr, DecidableEq

/-- The fault-free schedule: every store call succeeds. -/
def noFaults : Faults :=
  ⟨false, false, false, false, false, false, false⟩

/-- Combined state of the three stores. -/
structure World where
  mongo : List Product
  cache : RedisRepository.Cache
  search : ElasticRepository.Index

/-- One observable adapter call made by the service; `ok` records whether
the call succeeded (`false` means the adapter raised and the service
swallowed or propagated the error). -/
inductive Event where
  | mongoCreate (ok : Bool)
  | mongoGet (pid : String) (ok : Bool)
  | mongoUpdate (pid : String) (ok : Bool)
  | mongoDelete (pid : String) (ok : Bool)
  | mongoList (ok : Bool)
  | cacheGet (key : String) (ok : Bool)
  | cacheSet (key : String) (ok : Bool)
  | cacheDelete (key : String) (ok : Bool)
  | searchIndex (docId : String) (ok : Bool)
  | searchDelete (docId : String) (ok : Bool)
  | searchBulk (docCount : Nat) (ok : Bool)
  deriving Repr, DecidableEq

namespace ProductService

/-- Model of `ProductService._cache_key`. -/
def cache_key (product_id : String) : String :=
  "product:" ++ product_id

/-- Model of `ProductService.create`: write to the primary store (must succeed —
its error propagates), then attempt to index the document in search with
`SearchError` suppressed, and return the created product. -/
def create (f : Faults) (w : World) (data : ProductCreate)
    (newId : String) (now : Nat) :
    Except ServiceError Product × World × List Event :=
  match MongoRepository.create f.mongoFails w.mongo data newId now with
  | .error e => (.error e, w, [.mongoCreate false])
  | .ok (product, db') =>
    let w1 : World := { w with mongo := db' }
    match ElasticRepository.index_document f.searchIndexFails w1.search
        product.id product.dump with
    | .error _ => (.ok product, w1, [.mongoCreate true, .searchIndex product.id false])
    | .ok idx' => (.ok product, { w1 with search := idx' },
        [.mongoCreate true, .searchIndex product.id true])

/-- Model of `ProductService.get_by_id` (cache-aside): try the cache; a truthy
cached dict is deserialized with `Product(**cached)` and returned (a
pydantic `ValidationError` there is not a `CacheError` and propagates);
`CacheError` from the cache get is swallowed and treated as a miss. On
miss, read the primary store (its error propagates), then attempt to
populate the cache with `CacheError` suppressed, and return the product. -/
def get_by_id (f : Faults) (w : World) (product_id : String) (now : Nat) :
    Except ServiceError Product × World × List Event :=
  let key := cache_key product_id
  let hit : Except ServiceError (Option Product) :=
    match RedisRepository.get f.cacheGetFails w.cache key with
    | .error _ => .ok none
    | .ok none => .ok none
    | .ok (some cached) =>
      if cached.nonEmpty then
        match parseProduct cached now with
        | .ok p => .ok (some p)
        | .error e => .error e
      else .ok none
  match hit with
  | .error e => (.error e, w, [.cacheGet key true])
  | .ok (some p) => (.ok p, w, [.cacheGet key true])
  | .ok none =>
    match MongoRepository.get_by_id f.mongoFails w.mongo product_id with
    | .error e => (.error e, w, [.cacheGet key (!f.cacheGetFails),
        .mongoGet product_id false])
    | .ok product =>
      match RedisRepository.set f.cacheSetFails w.cache key product.dump with
      | .error _ => (.ok product, w, [.cacheGet key (!f.cacheGetFails),
          .mongoGet product_id true, .cacheSet key false])
      | .ok c' => (.ok product, { w with cache := c' },
          [.cacheGet key (!f.cacheGetFails), .mongoGet product_id true,
            .cacheSet key true])

/-- Model of `ProductService.update`: write to the primary store first (must
succeed — `NotFoundError` and `DatabaseError` propagate and nothing else
is attempted); then invalidate the cache entry with `CacheError`
suppressed, then re-index the document in search with `SearchError`
suppressed, and return the updated product. -/
def update (f : Faults) (w : World) (product_id : String)
    (data : ProductUpdate) (now : Nat) :
    Except ServiceError Product × World × List Event :=
  match MongoRepository.update f.mongoFails w.mongo product_id data now with
  | .error e => (.error e, w, [.mongoUpdate product_id false])
  | .ok (product, db') =>
    let key := cache_key product_id
    let w1 : World := { w with mongo := db' }
    let step2 : World × Event :=
      match RedisRepository.delete f.cacheDeleteFails w1.cache key with
      | .error _ => (w1, .cacheDelete key false)
      | .ok c' => ({ w1 with cache := c' }, .cacheDelete key true)
    let step3 : World × Event :=
      match ElasticRepository.index_document f.searchIndexFails
          step2.1.search product.id product.dump with
      | .error _ => (step2.1, .searchIndex product.id false)
      | .ok idx' => ({ step2.1 with search := idx' }, .searchIndex product.id true)
    (.ok product, step3.1, [.mongoUpdate product_id true, step2.2, step3.2])

/-- Model of `ProductService.delete`: delete from the primary store first (must
succeed — its error propagates); then best-effort delete the cache entry
(`CacheError` suppressed) and best-effort delete the search document
(`SearchError` suppressed). -/
def delete (f : Faults) (w : World) (product_id : String) :
    Except ServiceError Unit × World × List Event :=
  match MongoRepository.delete f.mongoFails w.mongo product_id with
  | .error e => (.error e, w, [.mongoDelete product_id false])
  | .ok db' =>
    let key := cache_key product_id
    let w1 : World := { w with mongo := db' }
    let step2 : World × Event :=
      match RedisRepository.delete f.cacheDeleteFails w1.cache key with
      | .error _ => (w1, .cacheDelete key false)
      | .ok c' => ({ w1 with cache := c' }, .cacheDelete key true)
    let step3 : World × Event :=
      match ElasticRepository.delete_document f.searchDeleteFails
          step2.1.search product_id with
      | .error _ => (step2.1, .searchDelete product_id false)
      | .ok idx' => ({ step2.1 with search := idx' }, .searchDelete product_id true)
    (.ok (), step3.1, [.mongoDelete product_id true, step2.2, step3.2])

/-- Model of `ProductService.reindex_all`: list every product from the primary
store with the fixed page `limit=10000` (and no filters), project each to
its `model_dump()` document, submit them as one `bulk_index` call, and
return the number of documents processed. Neither store error is
suppressed here, and the cache is never touched. -/
def reindex_all (f : Faults) (w : World) :
    Except ServiceError Nat × World × List Event :=
  match MongoRepository.list_all f.mongoFails w.mongo 0 10000 none none with
  | .error e => (.error e, w, [.mongoList false])
  | .ok products =>
    let documents := products.map Product.dump
    match ElasticRepository.bulk_index f.searchBulkFails w.search documents with
    | .error e => (.error e, w, [.mongoList true,
        .searchBulk documents.length false])
    | .ok idx' => (.ok documents.length, { w with search := idx' },
        [.mongoList true, .searchBulk documents.length true])

end ProductService

/-- A sample product used as a concrete witness input. -/
def sampleProduct : Product :=
  ⟨"p1", "Widget", none, 1999, 5, "Tools", true, 0, 0⟩

/-- A world holding the sample product, with empty cache and search. -/
def sampleWorld : World :=
  ⟨[sampleProduct], [], []⟩

/-- A world holding the sample product whose snapshot is also cached. -/
def cachedWorld : World :=
  ⟨[sampleProduct], [(ProductService.cache_key "p1", sampleProduct.dump)], []⟩

/-- A cached snapshot that is non-empty (so Python truthiness takes the
cache-hit path) but misses required fields (`price`, `category`), so
`Product(**cached)` raises a validation error. -/
def badDict : ProductDict :=
  ⟨none, some "Widget", none, none, none, none, none, none, none⟩

/-- A world whose cache holds the bad snapshot for the sample product. -/
def badCacheWorld : World :=
  ⟨[sampleProduct], [(ProductService.cache_key "p1", badDict)], []⟩

/-- A world whose primary store holds one more product than the fixed
reindex page size. -/
def bigWorld : World :=
  ⟨List.replicate 10001 sampleProduct, [], []⟩

instance {ε α : Type} [DecidableEq ε] [DecidableEq α] :
    DecidableEq (Except ε α) := fun x y =>
  match x, y with
  | .ok a, .ok b =>
    if h : a = b then isTrue (by rw [h])
    else isFalse (fun hc => h (Except.ok.inj hc))
  | .error a, .error b =>
    if h : a = b then isTrue (by rw [h])
    else isFalse (fun hc => h (Except.error.inj hc))
  | .ok _, .error _ => isFalse (fun hc => Except.noConfusion hc)
  | .error _, .ok _ => isFalse (fun hc => Except.noConfusion hc)

section MongoUpdateClaims

/-- C1 counterexample: the claim says an empty-payload update changes
`updated_at`; on the code, updating the sample product (stored
`updated_at = 0`) with the empty payload at time `42` succeeds but returns
the product with `updated_at` still `0` — unchanged — because
`MongoRepository.update` skips the write entirely when
`model_dump(exclude_unset=True)` is empty. -/
theorem emptyUpdate_keeps_updated_at_cex :
    MongoRepository.update false [sampleProduct] "p1" ProductUpdate.empty 42
        = .ok (sampleProduct, [sampleProduct]) ∧
      sampleProduct.updated_at = 0 ∧ (0 : Nat) ≠ 42 := by
  refine ⟨rfl, rfl, by decide⟩

/-- C1 (amended): for every stored Item, calling update with an empty
payload is a complete no-op — it returns the Item with every field,
including `updated_at`, unchanged, and leaves the collection untouched. -/
theorem emptyUpdate_noop (db : List Product) (pid : String) (p : Product)
    (now : Nat) (h : db.find? (fun q => q.id == pid) = some p) :
    MongoRepository.update false db pid ProductUpdate.empty now = .ok (p, db) := by
  simp [MongoRepository.update, MongoRepository.get_by_id, h,
    ProductUpdate.isUnsetAll, ProductUpdate.empty]

/-- Witness for `emptyUpdate_noop` on the sample product. -/
theorem emptyUpdate_noop_witness :
    MongoRepository.update false [sampleProduct] "p1" ProductUpdate.empty 42
      = .ok (sampleProduct, [sampleProduct]) :=
  emptyUpdate_noop [sampleProduct] "p1" sampleProduct 42 (by rfl)

/-- C7: for every stored Item, a partial update whose payload sets only
`stock := n` returns the Item with `stock = n` and `updated_at = now`,
every other field (name, description, price, category, active flag,
creation timestamp, identifier) unchanged, and saves exactly that. -/
theorem stockOnly_update_frame (db : List Product) (pid : String)
    (p : Product) (n : Nat) (now : Nat)
    (h : db.find? (fun q => q.id == pid) = some p) :
    MongoRepository.update false db pid (ProductUpdate.stockOnly n) now
      = .ok ({ p with stock := n, updated_at := now },
        MongoRepository.save db pid { p with stock := n, updated_at := now }) := by
  simp [MongoRepository.update, MongoRepository.get_by_id, h,
    ProductUpdate.isUnsetAll, ProductUpdate.stockOnly, applyFields]

/-- Witness for `stockOnly_update_frame` on the sample product. -/
theorem stockOnly_update_frame_witness :
    MongoRepository.update false [sampleProduct] "p1"
        (ProductUpdate.stockOnly 9) 42
      = .ok ({ sampleProduct with stock := 9, updated_at := 42 },
        MongoRepository.save [sampleProduct] "p1"
          { sampleProduct with stock := 9, updated_at := 42 }) :=
  stockOnly_update_frame [sampleProduct] "p1" sampleProduct 9 42 (by rfl)

end MongoUpdateClaims

section ServiceReadWriteClaims

/-- C3: for every identifier present in the primary store, when the cache
adapter's `get` raises `CacheError` during `get_by_id`, the failure is
swallowed like a miss: the service reads the Item from the primary store,
attempts to populate the cache (with a populate failure `b` also
swallowed), and returns the correct Item. -/
theorem getById_cacheError_falls_back (w : World) (pid : String)
    (p : Product) (now : Nat) (b : Bool)
    (h : w.mongo.find? (fun q => q.id == pid) = some p) :
    ((ProductService.get_by_id
        { noFaults with cacheGetFails := true, cacheSetFails := b }
        w pid now).1 = .ok p) ∧
    ((ProductService.get_by_id
        { noFaults with cacheGetFails := true, cacheSetFails := b }
        w pid now).2.2
      = [.cacheGet (ProductService.cache_key pid) false, .mongoGet pid true,
         .cacheSet (ProductService.cache_key pid) (!b)]) := by
  cases b <;>
    simp [ProductService.get_by_id, MongoRepository.get_by_id, h, noFaults,
      RedisRepository.get, RedisRepository.set]

/-- Witness for `getById_cacheError_falls_back` on the sample world. -/
theorem getById_cacheError_falls_back_witness :
    ((ProductService.get_by_id
        { noFaults with cacheGetFails := true, cacheSetFails := true }
        sampleWorld "p1" 7).1 = .ok sampleProduct) ∧
    ((ProductService.get_by_id
        { noFaults with cacheGetFails := true, cacheSetFails := true }
        sampleWorld "p1" 7).2.2
      = [.cacheGet (ProductService.cache_key "p1") false, .mongoGet "p1" true,
         .cacheSet (ProductService.cache_key "p1") false]) :=
  getById_cacheError_falls_back sampleWorld "p1" sampleProduct 7 true (by rfl)

/-- C4: for every create payload, when the primary-store write succeeds but
`index_document` raises `SearchError`, the service swallows the search
failure and still returns exactly the Item the primary store created (one
mongo create, one failed search-index attempt); when the primary-store
write fails, `create` fails with the primary store's `DatabaseError` and
the search step is never attempted. -/
theorem create_swallows_searchError (w : World) (data : ProductCreate)
    (newId : String) (now : Nat) :
    ((ProductService.create { noFaults with searchIndexFails := true }
        w data newId now).1
      = (MongoRepository.create false w.mongo data newId now).map Prod.fst) ∧
    ((ProductService.create { noFaults with searchIndexFails := true }
        w data newId now).2.2
      = [.mongoCreate true, .searchIndex newId false]) ∧
    (ProductService.create { noFaults with mongoFails := true }
        w data newId now
      = (.error .databaseError, w, [.mongoCreate false])) := by
  simp [ProductService.create, MongoRepository.create, noFaults,
    ElasticRepository.index_document, Except.map]

end ServiceReadWriteClaims

section UpdateProtocolClaim

/-- C6: the update protocol. When the primary store fails, `update`
propagates `DatabaseError` and attempts neither the cache-delete nor the
search re-index (the trace holds the failed mongo write only); likewise a
missing identifier propagates `NotFoundError` with neither best-effort
step attempted. When the primary write succeeds, the returned Item is the
written one whatever the best-effort outcomes `b₁`, `b₂`, and the trace
shows the cache invalidation attempted before the search re-index, each
step's failure swallowed. -/
theorem update_protocol (w : World) (pid : String) (data : ProductUpdate)
    (now : Nat) (p : Product) (b₁ b₂ : Bool)
    (h : w.mongo.find? (fun q => q.id == pid) = some p) :
    (ProductService.update
        { noFaults with
          mongoFails := true
          cacheDeleteFails := b₁
          searchIndexFails := b₂ } w pid data now
      = (.error .databaseError, w, [.mongoUpdate pid false])) ∧
    (∀ w₂ : World, w₂.mongo.find? (fun q => q.id == pid) = none →
      ProductService.update
          { noFaults with cacheDeleteFails := b₁, searchIndexFails := b₂ }
          w₂ pid data now
        = (.error .notFound, w₂, [.mongoUpdate pid false])) ∧
    ((ProductService.update
        { noFaults with cacheDeleteFails := b₁, searchIndexFails := b₂ }
        w pid data now).1
      = .ok (if data.isUnsetAll then p else applyFields p data now)) ∧
    ((ProductService.update
        { noFaults with cacheDeleteFails := b₁, searchIndexFails := b₂ }
        w pid data now).2.2
      = [.mongoUpdate pid true,
         .cacheDelete (ProductService.cache_key pid) (!b₁),
         .searchIndex (if data.isUnsetAll then p
           else applyFields p data now).id (!b₂)]) := by
  refine ⟨?_, ?_, ?_, ?_⟩
  · simp [ProductService.update, MongoRepository.update,
      MongoRepository.get_by_id, noFaults]
  · intro w₂ h₂
    simp [ProductService.update, MongoRepository.update,
      MongoRepository.get_by_id, h₂, noFaults]
  · cases b₁ <;> cases b₂ <;>
      cases hu : data.isUnsetAll <;>
        simp [ProductService.update, MongoRepository.update,
          MongoRepository.get_by_id, h, hu, noFaults,
          RedisRepository.delete, ElasticRepository.index_document]
  · cases b₁ <;> cases b₂ <;>
      cases hu : data.isUnsetAll <;>
        simp [ProductService.update, MongoRepository.update,
          MongoRepository.get_by_id, h, hu, noFaults,
          RedisRepository.delete, ElasticRepository.index_document]

/-- Witness for `update_protocol`: the sample world, a stock-only payload,
both best-effort steps failing. -/
theorem update_protocol_witness :
    (ProductService.update
        { noFaults with
          mongoFails := true
          cacheDeleteFails := true
          searchIndexFails := true } sampleWorld "p1"
        (ProductUpdate.stockOnly 9) 42
      = (.error .databaseError, sampleWorld, [.mongoUpdate "p1" false])) ∧
    (ProductService.update
        { noFaults with cacheDeleteFails := true, searchIndexFails := true }
        (⟨[], [], []⟩ : World) "p1" (ProductUpdate.stockOnly 9) 42
      = (.error .notFound, (⟨[], [], []⟩ : World), [.mongoUpdate "p1" false])) ∧
    ((ProductService.update
        { noFaults with cacheDeleteFails := true, searchIndexFails := true }
        sampleWorld "p1" (ProductUpdate.stockOnly 9) 42).1
      = .ok (if (ProductUpdate.stockOnly 9).isUnsetAll then sampleProduct
          else applyFields sampleProduct (ProductUpdate.stockOnly 9) 42)) := by
  have hmain := update_protocol sampleWorld "p1" (ProductUpdate.stockOnly 9)
    42 sampleProduct true true (by rfl)
  exact ⟨hmain.1, hmain.2.1 (⟨[], [], []⟩ : World) (by rfl), hmain.2.2.1⟩

end UpdateProtocolClaim

section DeleteClaim

/-- Filtering out exactly the elements satisfying `p` leaves nothing for
`find? p` to find. -/
theorem find?_filter_neg {α : Type} (l : List α) (p : α → Bool) :
    List.find? p (List.filter (fun x => !(p x)) l) = none := by
  rw [List.find?_eq_none]
  intro x hx
  have hq := (List.mem_filter.mp hx).2
  simp only [Bool.not_eq_true'] at hq
  simp [hq]

/-- A constantly-false predicate finds nothing. -/
theorem find?_false {α : Type} (l : List α) :
    List.find? (fun _ => false) l = none := by
  rw [List.find?_eq_none]
  simp

/-- C5 counterexample: with the sample product stored and cached, `delete`
succeeds even though its best-effort cache invalidation fails (the
`CacheError` is swallowed); the subsequent `get_by_id` then returns the
stale cached Item instead of failing with `NotFoundError`. -/
theorem delete_then_getById_stale_cex :
    ((ProductService.delete { noFaults with cacheDeleteFails := true }
        cachedWorld "p1").1 = .ok ()) ∧
    ((ProductService.get_by_id noFaults
        (ProductService.delete { noFaults with cacheDeleteFails := true }
          cachedWorld "p1").2.1 "p1" 7).1 = .ok sampleProduct) ∧
    ((ProductService.get_by_id noFaults
        (ProductService.delete { noFaults with cacheDeleteFails := true }
          cachedWorld "p1").2.1 "p1" 7).1 ≠ .error .notFound) := by
  refine ⟨rfl, rfl, by decide⟩

/-- C5 (amended): after `delete(id)` succeeds with its best-effort cache
invalidation actually removing the entry, a subsequent `get_by_id(id)`
with no intervening create fails with `NotFoundError`, regardless of any
prior cache population and of the search-delete outcome `b₁` and the
cache-read outcome `b₂`; only a swallowed cache-delete failure can leave
a stale snapshot behind. -/
theorem delete_then_getById_notFound (w : World) (pid : String)
    (p : Product) (now : Nat) (b₁ b₂ : Bool)
    (h : w.mongo.find? (fun q => q.id == pid) = some p) :
    ((ProductService.delete { noFaults with searchDeleteFails := b₁ }
        w pid).1 = .ok ()) ∧
    ((ProductService.get_by_id { noFaults with cacheGetFails := b₂ }
        (ProductService.delete { noFaults with searchDeleteFails := b₁ }
          w pid).2.1 pid now).1 = .error .notFound) := by
  cases b₁ <;> cases b₂ <;>
    simp [ProductService.delete, ProductService.get_by_id,
      MongoRepository.delete, MongoRepository.get_by_id, h, noFaults,
      RedisRepository.delete, RedisRepository.get, RedisRepository.set,
      RedisRepository.cacheGetRaw, RedisRepository.cacheDeleteRaw,
      ElasticRepository.delete_document, find?_filter_neg, find?_false]

/-- Witness for `delete_then_getById_notFound` on the cached world. -/
theorem delete_then_getById_notFound_witness :
    ((ProductService.delete { noFaults with searchDeleteFails := true }
        cachedWorld "p1").1 = .ok ()) ∧
    ((ProductService.get_by_id { noFaults with cacheGetFails := false }
        (ProductService.delete { noFaults with searchDeleteFails := true }
          cachedWorld "p1").2.1 "p1" 7).1 = .error .notFound) :=
  delete_then_getById_notFound cachedWorld "p1" sampleProduct 7 true false
    (by rfl)

end DeleteClaim

section BadSnapshotClaim

/-- C10: when the cache get succeeds and returns a truthy snapshot whose
deserialization fails, `get_by_id` propagates the validation error to the
caller: it does not treat the bad snapshot as a miss, never reads the
primary store, and never repopulates the cache (the trace holds the cache
get only). Only a `CacheError` from the cache get is treated as a miss. -/
theorem getById_bad_snapshot_propagates (w : World) (pid : String)
    (d : ProductDict) (now : Nat)
    (h1 : RedisRepository.cacheGetRaw w.cache (ProductService.cache_key pid)
      = some d)
    (h2 : d.nonEmpty = true)
    (h3 : parseProduct d now = .error .validationError) :
    ProductService.get_by_id noFaults w pid now
      = (.error .validationError, w,
         [.cacheGet (ProductService.cache_key pid) true]) := by
  simp [ProductService.get_by_id, RedisRepository.get, noFaults, h1, h2, h3]

/-- Witness for `getById_bad_snapshot_propagates` on the bad-cache world. -/
theorem getById_bad_snapshot_propagates_witness :
    ProductService.get_by_id noFaults badCacheWorld "p1" 7
      = (.error .validationError, badCacheWorld,
         [.cacheGet (ProductService.cache_key "p1") true]) :=
  getById_bad_snapshot_propagates badCacheWorld "p1" badDict 7 (by rfl)
    (by rfl) (by rfl)

end BadSnapshotClaim

section ReindexClaim

/-- A fault-free bulk index always succeeds (the empty case never even
reaches the client). -/
theorem bulk_index_ok (idx : ElasticRepository.Index)
    (docs : List ProductDict) :
    ∃ idx', ElasticRepository.bulk_index false idx docs = .ok idx' := by
  unfold ElasticRepository.bulk_index
  by_cases h : docs.isEmpty <;> simp [h]

/-- Fault-free `reindex_all` returns the number of products in the page it
read — the store count capped at the fixed page size `10000` — and makes
exactly one list call followed by one bulk-index call. -/
theorem reindex_all_result (w : World) :
    (ProductService.reindex_all noFaults w).1
      = .ok (min 10000 w.mongo.length) ∧
    (ProductService.reindex_all noFaults w).2.2
      = [.mongoList true, .searchBulk (min 10000 w.mongo.length) true] := by
  have hlist : MongoRepository.list_all false w.mongo 0 10000 none none
      = .ok ((w.mongo.mergeSort
          (fun a b => Nat.ble b.created_at a.created_at)).take 10000) := by
    simp [MongoRepository.list_all]
  obtain ⟨idx', hidx⟩ := bulk_index_ok w.search
    (((w.mongo.mergeSort
      (fun a b => Nat.ble b.created_at a.created_at)).take 10000).map
        Product.dump)
  rw [List.map_take] at hidx
  simp [ProductService.reindex_all, noFaults, hlist, hidx,
    List.length_take, List.length_mergeSort]

/-- C2 counterexample: with `10001` Items in the primary store,
`reindex_all` returns `10000` — the fixed page size — not the store count,
because `list_all` is called with `limit=10000`. -/
theorem reindexAll_count_cex :
    (ProductService.reindex_all noFaults bigWorld).1 = .ok 10000 ∧
    bigWorld.mongo.length = 10001 := by
  have hlen : bigWorld.mongo.length = 10001 := by
    show (List.replicate 10001 sampleProduct).length = 10001
    rw [List.length_replicate]
  have h := (reindex_all_result bigWorld).1
  rw [hlen] at h
  have hmin : min 10000 10001 = 10000 := by omega
  rw [hmin] at h
  exact ⟨h, hlen⟩

/-- C2 (amended): fault-free `reindex_all` reads one page of up to `10000`
Items from the primary store, submits their projections as one bulk-index
call, and returns the count processed — the number of Items in the primary
store capped at the `10000` page size (equal to the store count whenever
at most `10000` Items are present). -/
theorem reindexAll_count (w : World) :
    (ProductService.reindex_all noFaults w).1
      = .ok (min 10000 w.mongo.length) ∧
    (ProductService.reindex_all noFaults w).2.2
      = [.mongoList true, .searchBulk (min 10000 w.mongo.length) true] :=
  reindex_all_result w

end ReindexClaim

section CategoryCaseClaim

/-- On the lowercase ASCII letter codes, `Char.ofNat` round-trips through
`toNat`. -/
theorem toNat_ofNat_lower_ascii (n : Nat) (h1 : 97 ≤ n) (h2 : n ≤ 122) :
    (Char.ofNat n).toNat = n := by
  interval_cases n <;> rfl

/-- One application of the ASCII lowercase mapping is a fixed point of a
second one. -/
theorem pyLowerChar_idem (c : Char) :
    pyLowerChar (pyLowerChar c) = pyLowerChar c := by
  unfold pyLowerChar
  by_cases h : 65 ≤ c.toNat ∧ c.toNat ≤ 90
  · rw [if_pos h, if_neg]
    have h97 : (Char.ofNat (c.toNat + 32)).toNat = c.toNat + 32 :=
      toNat_ofNat_lower_ascii _ (by omega) (by omega)
    rw [h97]
    omega
  · rw [if_neg h, if_neg h]

/-- Lowercasing a string is idempotent. -/
theorem pyLower_idem (s : String) : pyLower (pyLower s) = pyLower s := by
  unfold pyLower
  simp [List.map_map, Function.comp_def, pyLowerChar_idem]

/-- C8: for every index state, every category string and every result
size, `search_by_category` returns the same result set for the category
and for its lowercased form: the stored categories and the query term are
normalized to lowercase identically (index-time `lowercase_normalizer`,
query-time `category.lower()`), so exact-match category lookup is
case-insensitive. -/
theorem searchByCategory_case_insensitive (idx : ElasticRepository.Index)
    (category : String) (size : Nat) :
    ElasticRepository.search_by_category false idx category size
      = ElasticRepository.search_by_category false idx (pyLower category)
        size := by
  simp [ElasticRepository.search_by_category, ElasticRepository.termQueryCategory,
    pyLower_idem]

end CategoryCaseClaim

section ScanLoopClaim

/-- The keys scanned over the whole loop are exactly the matching keys of
the keyspace remainder: every matching key is in some batch and every
batch key matches. -/
theorem scanBatches_flatten (ks : List String) (m : String → Bool) :
    ∀ n c, ks.length - c ≤ n →
      (RedisRepository.scanBatches ks m c).flatten = (ks.drop c).filter m := by
  intro n
  induction n with
  | zero =>
    intro c hc
    have hnl : ¬ c + 100 < ks.length := by omega
    have htake : (ks.drop c).take 100 = ks.drop c :=
      List.take_of_length_le (by rw [List.length_drop]; omega)
    rw [RedisRepository.scanBatches]
    simp [RedisRepository.scanStep, hnl, htake]
  | succ n ih =>
    intro c hc
    rw [RedisRepository.scanBatches]
    by_cases hlt : c + 100 < ks.length
    · simp only [RedisRepository.scanStep, if_pos hlt]
      have hne : ¬ (c + 100 = 0) := by omega
      rw [if_neg hne, List.flatten_cons, ih (c + 100) (by omega),
        ← List.drop_drop, ← List.filter_append, List.take_append_drop]
    · have htake : (ks.drop c).take 100 = ks.drop c :=
        List.take_of_length_le (by rw [List.length_drop]; omega)
      simp [RedisRepository.scanStep, hlt, htake]

/-- Every batch the loop deletes holds at most the scan `count` of `100`
keys: the loop never fetches the full keyspace in one call. -/
theorem scanBatches_bounded (ks : List String) (m : String → Bool) :
    ∀ n c, ks.length - c ≤ n →
      ∀ b ∈ RedisRepository.scanBatches ks m c, b.length ≤ 100 := by
  have hsingle : ∀ c, (((ks.drop c).take 100).filter m).length ≤ 100 := by
    intro c
    calc (((ks.drop c).take 100).filter m).length
        ≤ ((ks.drop c).take 100).length := List.length_filter_le _ _
      _ ≤ 100 := by rw [List.length_take]; omega
  intro n
  induction n with
  | zero =>
    intro c hc b hb
    have hnl : ¬ c + 100 < ks.length := by omega
    rw [RedisRepository.scanBatches] at hb
    simp [RedisRepository.scanStep, hnl] at hb
    subst hb
    exact hsingle c
  | succ n ih =>
    intro c hc b hb
    rw [RedisRepository.scanBatches] at hb
    by_cases hlt : c + 100 < ks.length
    · have hne : ¬ (c + 100 = 0) := by omega
      simp only [RedisRepository.scanStep, if_pos hlt, if_neg hne,
        List.mem_cons] at hb
      rcases hb with hb | hb
      · subst hb
        exact hsingle c
      · exact ih (c + 100) (by omega) b hb
    · simp [RedisRepository.scanStep, hlt] at hb
      subst hb
      exact hsingle c

/-- The loop makes at most one scan round-trip per `100` keys plus the
final one: it is incremental in the keyspace size. -/
theorem scanBatches_calls (ks : List String) (m : String → Bool) :
    ∀ n c, ks.length - c ≤ n →
      (RedisRepository.scanBatches ks m c).length
        ≤ (ks.length - c) / 100 + 1 := by
  intro n
  induction n with
  | zero =>
    intro c hc
    have hnl : ¬ c + 100 < ks.length := by omega
    rw [RedisRepository.scanBatches]
    simp [RedisRepository.scanStep, hnl]
  | succ n ih =>
    intro c hc
    rw [RedisRepository.scanBatches]
    by_cases hlt : c + 100 < ks.length
    · have hne : ¬ (c + 100 = 0) := by omega
      simp only [RedisRepository.scanStep, if_pos hlt, if_neg hne,
        List.length_cons]
      have := ih (c + 100) (by omega)
      omega
    · simp [RedisRepository.scanStep, hlt]

/-- The loop performs one scan per cursor value: batches and received
cursors are in bijection. -/
theorem scanBatches_length_eq_cursors (ks : List String) (m : String → Bool) :
    ∀ n c, ks.length - c ≤ n →
      (RedisRepository.scanBatches ks m c).length
        = (RedisRepository.scanCursors ks c).length := by
  intro n
  induction n with
  | zero =>
    intro c hc
    have hnl : ¬ c + 100 < ks.length := by omega
    rw [RedisRepository.scanBatches, RedisRepository.scanCursors]
    simp [RedisRepository.scanStep, hnl]
  | succ n ih =>
    intro c hc
    rw [RedisRepository.scanBatches, RedisRepository.scanCursors]
    by_cases hlt : c + 100 < ks.length
    · have hne : ¬ (c + 100 = 0) := by omega
      simp only [RedisRepository.scanStep, if_pos hlt, if_neg hne,
        List.length_cons]
      rw [ih (c + 100) (by omega)]
    · simp [RedisRepository.scanStep, hlt]

/-- The last cursor the loop sees — the one on which it stops — is the
starting value `0`. -/
theorem scanCursors_getLast (ks : List String) :
    ∀ n c, ks.length - c ≤ n →
      (RedisRepository.scanCursors ks c).getLast? = some 0 := by
  intro n
  induction n with
  | zero =>
    intro c hc
    have hnl : ¬ c + 100 < ks.length := by omega
    rw [RedisRepository.scanCursors]
    simp [hnl]
  | succ n ih =>
    intro c hc
    rw [RedisRepository.scanCursors]
    by_cases hlt : c + 100 < ks.length
    · rw [if_pos hlt, List.getLast?_cons, ih (c + 100) (by omega)]
      rfl
    · simp [hlt]

/-- Every cursor the loop continues from is non-zero: the loop never stops
before the cursor has come back to its starting value. -/
theorem scanCursors_dropLast_ne_zero (ks : List String) :
    ∀ n c, ks.length - c ≤ n →
      ∀ x ∈ (RedisRepository.scanCursors ks c).dropLast, x ≠ 0 := by
  intro n
  induction n with
  | zero =>
    intro c hc x hx
    have hnl : ¬ c + 100 < ks.length := by omega
    rw [RedisRepository.scanCursors] at hx
    simp [hnl] at hx
  | succ n ih =>
    intro c hc x hx
    rw [RedisRepository.scanCursors] at hx
    by_cases hlt : c + 100 < ks.length
    · rw [if_pos hlt] at hx
      rcases hcur : RedisRepository.scanCursors ks (c + 100) with _ | ⟨y, ys⟩
      · rw [hcur] at hx
        simp at hx
      · rw [hcur, List.dropLast_cons₂, List.mem_cons] at hx
        rcases hx with hx | hx
        · omega
        · exact ih (c + 100) (by omega) x (by rw [hcur]; exact hx)
    · simp [hlt] at hx

/-- Removing the keys of each batch in turn removes exactly the keys that
occur in some batch. -/
theorem foldl_delete_batches (bs : List (List String)) (l : List String) :
    bs.foldl (fun live batch => live.filter (fun k => !(batch.contains k))) l
      = l.filter (fun k => !(bs.flatten.contains k)) := by
  induction bs generalizing l with
  | nil => simp
  | cons b bs ih =>
    simp only [List.foldl_cons, List.flatten_cons]
    rw [ih, List.filter_filter]
    apply List.filter_congr
    intro x _
    simp only [List.contains, List.elem_eq_mem, List.mem_append]
    by_cases h1 : x ∈ b <;> by_cases h2 : x ∈ bs.flatten <;> simp [h1, h2]

/-- C9: `delete_pattern` follows the incremental scan contract. Every
batch it deletes holds at most the scan count of `100` keys (it never
fetches the whole keyspace in one call); the number of scan round-trips is
at most one per `100` keys plus the final one, with exactly one scan per
cursor value received; the loop stops precisely when the cursor returns to
its starting value `0` — the last cursor is `0` and every earlier one is
non-zero; and after the loop every key matching the pattern — and no other
key — has been deleted from the keyspace. -/
theorem delete_pattern_spec (ks : List String) (m : String → Bool) :
    (∀ b ∈ RedisRepository.scanBatches ks m 0, b.length ≤ 100) ∧
    ((RedisRepository.scanBatches ks m 0).length ≤ ks.length / 100 + 1) ∧
    ((RedisRepository.scanBatches ks m 0).length
      = (RedisRepository.scanCursors ks 0).length) ∧
    ((RedisRepository.scanCursors ks 0).getLast? = some 0) ∧
    (∀ x ∈ (RedisRepository.scanCursors ks 0).dropLast, x ≠ 0) ∧
    (RedisRepository.delete_pattern false ks m
      = .ok (ks.filter (fun k => !(m k)))) := by
  refine ⟨scanBatches_bounded ks m ks.length 0 (by omega),
    by simpa using scanBatches_calls ks m ks.length 0 (by omega),
    scanBatches_length_eq_cursors ks m ks.length 0 (by omega),
    scanCursors_getLast ks ks.length 0 (by omega),
    scanCursors_dropLast_ne_zero ks ks.length 0 (by omega), ?_⟩
  unfold RedisRepository.delete_pattern
  rw [if_neg (by simp)]
  rw [foldl_delete_batches,
    scanBatches_flatten ks m ks.length 0 (by omega), List.drop_zero]
  congr 1
  apply List.filter_congr
  intro x hx
  simp [List.contains, List.elem_eq_mem, List.mem_filter, hx]

end ScanLoopClaim

end Catalog
